import Mathlib

/-!
# SafeBid auction contract: shallow embedding and verification

This file embeds the `SafeBid` Solidity contract (the reference variant with
`BID_TIMEOUT = 600`, deployed behind the repository's UI and deploy scripts)
as executable Lean definitions, and proves properties of the auction
lifecycle state machine: creation, encrypted bidding, timeout-driven
resolution, manual end, emergency stop and settlement.

Modelling conventions:
* Ethereum addresses are natural numbers; `0` is the zero address
  (`address(0)`); `msg.sender` of a real transaction is never `0`.
* `uint256` fields are `Nat` (overflow of `totalAuctions` or of
  `lastBidTime + BID_TIMEOUT` is unreachable for realistic values, and
  Solidity 0.8 would revert rather than wrap).
* An `euint32` encrypted handle is modelled by the plaintext `Nat` it
  encrypts: the homomorphic runtime evaluates `FHE.max` as `max` on the
  underlying plaintexts, which is the "encrypted ordering" of the handles.
* `FHE.fromExternal` proof validation is modelled by a boolean
  `validProof` argument.
* A Solidity `revert` is an `Except.error` that leaves the state unchanged.
  Revert strings are mapped to the error taxonomy of the specification:
  "Auction does not exist" to `NotFound`; "Auction not active" and
  "Auction not started" to `NotActive` (for `emergencyStop`,
  "Auction not active" to `AlreadyEnded`); "Seller cannot bid",
  "Only seller can end auction" and "Only seller can emergency stop" to
  `Forbidden`; "Too early" to `TooEarly`; "Auction not ended" to
  `NotEnded`; "Not the winner" to `NotWinner`; "Insufficient payment" to
  `InsufficientPayment`; the three `createAuction` requires to
  `InvalidInput`.
-/

namespace SafeBid

/-- An Ethereum address, as a natural number; `0` is the zero address. -/
abbrev Address := Nat

/-- The `Auction` struct of the contract. -/
structure Auction where
  id : Nat
  seller : Address
  itemName : String
  startPrice : Nat
  startTime : Nat
  endTime : Nat
  active : Bool
  ended : Bool
  winner : Address
  finalPrice : Nat
deriving Repr, DecidableEq

/-- The `Bid` struct of the contract; `encryptedAmount` is the plaintext
denotation of the `euint32` handle. -/
structure Bid where
  bidder : Address
  encryptedAmount : Nat
  timestamp : Nat
  valid : Bool
deriving Repr, DecidableEq

/-- `uint256 public constant BID_TIMEOUT = 600;` -/
def BID_TIMEOUT : Nat := 600

/-- The zero-initialized `Auction` struct that a Solidity mapping returns
for an unassigned key. -/
def Auction.zero : Auction :=
  { id := 0, seller := 0, itemName := "", startPrice := 0, startTime := 0,
    endTime := 0, active := false, ended := false, winner := 0, finalPrice := 0 }

/-- Pointwise update of a mapping, modelling a Solidity storage write. -/
def upd {β : Type} (f : Nat → β) (k : Nat) (v : β) : Nat → β :=
  fun k' => if k' = k then v else f k'

/-- The contract storage, together with the external account balances used
by settlement.  Each Solidity `mapping` is a total function with the
zero-value default. -/
structure SBState where
  totalAuctions : Nat
  auctions : Nat → Auction
  auctionBids : Nat → List Bid
  highestBid : Nat → Nat
  lastBidTime : Nat → Nat
  currentLeader : Nat → Address
  balances : Address → Nat

/-- The error taxonomy of the specification, to which the contract's
revert strings are mapped (see the header comment). -/
inductive SBError where
  | InvalidInput
  | NotFound
  | NotActive
  | Forbidden
  | TooEarly
  | AlreadyEnded
  | NotEnded
  | NotWinner
  | InsufficientPayment
  | InvalidEncryption
deriving Repr, DecidableEq

/-- `createAuction(string itemName, uint256 startPrice, uint256 startTime)`.
Returns the new id and the updated state. -/
def createAuction (s : SBState) (now : Nat) (sender : Address)
    (itemName : String) (startPrice startTime : Nat) :
    Except SBError (Nat × SBState) :=
  if itemName = "" then Except.error SBError.InvalidInput
  else if startPrice = 0 then Except.error SBError.InvalidInput
  else if startTime ≤ now then Except.error SBError.InvalidInput
  else
    Except.ok (s.totalAuctions,
      { s with
        totalAuctions := s.totalAuctions + 1
        auctions := upd s.auctions s.totalAuctions
          { id := s.totalAuctions, seller := sender, itemName := itemName,
            startPrice := startPrice, startTime := startTime, endTime := 0,
            active := true, ended := false, winner := 0, finalPrice := 0 }
        lastBidTime := upd s.lastBidTime s.totalAuctions startTime })

/-- `placeBid(uint256 auctionId, externalEuint32 encryptedBid, bytes inputProof)`.
The bid value is the plaintext under the submitted handle; `validProof`
models whether `FHE.fromExternal` accepts the proof. -/
def placeBid (s : SBState) (now : Nat) (sender : Address)
    (auctionId bidValue : Nat) (validProof : Bool) :
    Except SBError SBState :=
  if auctionId < s.totalAuctions then
    if (s.auctions auctionId).active && !(s.auctions auctionId).ended then
      if now < (s.auctions auctionId).startTime then
        Except.error SBError.NotActive
      else if sender = (s.auctions auctionId).seller then
        Except.error SBError.Forbidden
      else if validProof then
        Except.ok
          { s with
            highestBid := upd s.highestBid auctionId
              (max (s.highestBid auctionId) bidValue)
            currentLeader := upd s.currentLeader auctionId sender
            auctionBids := upd s.auctionBids auctionId
              (s.auctionBids auctionId ++
                [{ bidder := sender, encryptedAmount := bidValue,
                   timestamp := now, valid := true }])
            lastBidTime := upd s.lastBidTime auctionId now }
      else Except.error SBError.InvalidEncryption
    else Except.error SBError.NotActive
  else Except.error SBError.NotFound

/-- The internal `_endAuction` helper: freezes the auction with the current
leader as winner and, unconditionally, `startPrice` as the final price. -/
def endAuctionInternal (s : SBState) (now : Nat) (auctionId : Nat) : SBState :=
  { s with
    auctions := upd s.auctions auctionId
      { s.auctions auctionId with
          active := false, ended := true, endTime := now,
          winner := s.currentLeader auctionId,
          finalPrice := (s.auctions auctionId).startPrice } }

/-- `checkAuctionEnd(uint256 auctionId)`: callable by anyone; resolves the
auction if the inactivity timeout has elapsed. -/
def checkAuctionEnd (s : SBState) (now : Nat) (auctionId : Nat) :
    Except SBError (Bool × SBState) :=
  if auctionId < s.totalAuctions then
    if !(s.auctions auctionId).active || (s.auctions auctionId).ended then
      Except.ok (false, s)
    else if now > s.lastBidTime auctionId + BID_TIMEOUT then
      Except.ok (true, endAuctionInternal s now auctionId)
    else Except.ok (false, s)
  else Except.error SBError.NotFound

/-- `endAuction(uint256 auctionId)`: seller-only manual end after the
inactivity timeout. -/
def endAuction (s : SBState) (now : Nat) (sender : Address)
    (auctionId : Nat) : Except SBError SBState :=
  if auctionId < s.totalAuctions then
    if sender = (s.auctions auctionId).seller then
      if (s.auctions auctionId).active && !(s.auctions auctionId).ended then
        if now > s.lastBidTime auctionId + BID_TIMEOUT then
          Except.ok (endAuctionInternal s now auctionId)
        else Except.error SBError.TooEarly
      else Except.error SBError.NotActive
    else Except.error SBError.Forbidden
  else Except.error SBError.NotFound

/-- `emergencyStop(uint256 auctionId)`: seller-only cancellation with no
winner, bypassing the timeout. -/
def emergencyStop (s : SBState) (now : Nat) (sender : Address)
    (auctionId : Nat) : Except SBError SBState :=
  if auctionId < s.totalAuctions then
    if sender = (s.auctions auctionId).seller then
      if (s.auctions auctionId).active && !(s.auctions auctionId).ended then
        Except.ok
          { s with
            auctions := upd s.auctions auctionId
              { s.auctions auctionId with
                  active := false, ended := true, endTime := now,
                  winner := 0, finalPrice := 0 } }
      else Except.error SBError.AlreadyEnded
    else Except.error SBError.Forbidden
  else Except.error SBError.NotFound

/-- `completePurchase(uint256 auctionId)` with attached `msg.value = value`:
the winner pays exactly `startPrice`, which is forwarded to the seller.
The EVM moves `value` from the caller to the contract before the body
runs, and the body forwards it to the seller; the net balance effect is
modelled directly. -/
def completePurchase (s : SBState) (sender : Address)
    (auctionId value : Nat) : Except SBError SBState :=
  if auctionId < s.totalAuctions then
    if (s.auctions auctionId).ended && !(s.auctions auctionId).active then
      if sender = (s.auctions auctionId).winner then
        if value = (s.auctions auctionId).startPrice then
          Except.ok
            { s with
              balances := upd
                (upd s.balances sender (s.balances sender - value))
                (s.auctions auctionId).seller
                ((upd s.balances sender (s.balances sender - value))
                  (s.auctions auctionId).seller + value) }
        else Except.error SBError.InsufficientPayment
      else Except.error SBError.NotWinner
    else Except.error SBError.NotEnded
  else Except.error SBError.NotFound

/-- A state-changing call to the contract: the operation name and its
arguments, with the caller identity. -/
inductive Op where
  | createAuction (sender : Address) (itemName : String)
      (startPrice startTime : Nat)
  | placeBid (sender : Address) (auctionId bidValue : Nat) (validProof : Bool)
  | checkAuctionEnd (sender : Address) (auctionId : Nat)
  | endAuction (sender : Address) (auctionId : Nat)
  | emergencyStop (sender : Address) (auctionId : Nat)
  | completePurchase (sender : Address) (auctionId value : Nat)

/-- The caller of an operation. -/
def Op.sender : Op → Address
  | .createAuction s _ _ _ => s
  | .placeBid s _ _ _ => s
  | .checkAuctionEnd s _ => s
  | .endAuction s _ => s
  | .emergencyStop s _ => s
  | .completePurchase s _ _ => s

/-- Execute one state-changing call, discarding return values. -/
def applyOp (s : SBState) (now : Nat) (op : Op) : Except SBError SBState :=
  match op with
  | .createAuction sender itemName startPrice startTime =>
    (createAuction s now sender itemName startPrice startTime).map (fun p => p.2)
  | .placeBid sender auctionId bidValue validProof =>
    placeBid s now sender auctionId bidValue validProof
  | .checkAuctionEnd _ auctionId =>
    (checkAuctionEnd s now auctionId).map (fun p => p.2)
  | .endAuction sender auctionId => endAuction s now sender auctionId
  | .emergencyStop sender auctionId => emergencyStop s now sender auctionId
  | .completePurchase sender auctionId value =>
    completePurchase s sender auctionId value

/-- The storage of a freshly deployed contract: all mappings hold their
zero values. -/
def initState : SBState :=
  { totalAuctions := 0
    auctions := fun _ => Auction.zero
    auctionBids := fun _ => []
    highestBid := fun _ => 0
    lastBidTime := fun _ => 0
    currentLeader := fun _ => 0
    balances := fun _ => 0 }

/-- States reachable from deployment by successful transactions.  The EVM
guarantees that `msg.sender` of a transaction is never the zero address. -/
inductive Reachable : SBState → Prop where
  | init : Reachable initState
  | step (s s' : SBState) (now : Nat) (op : Op) (hr : Reachable s)
      (hs : op.sender ≠ 0) (h : applyOp s now op = Except.ok s') :
      Reachable s'

/-- Per-auction invariant of reachable states: the `active`/`ended` flag
pair is consistent, the seller is a real address, no recorded bid comes
from the seller or the zero address, the tracked leader is the zero
address exactly when no bid was recorded (and otherwise is one of the
recorded bidders), and an ended auction either has no winner or has a
non-seller winner with `finalPrice = startPrice`. -/
def AuctionInv (s : SBState) (id : Nat) : Prop :=
  ((s.auctions id).active = !(s.auctions id).ended) ∧
  (s.auctions id).seller ≠ 0 ∧
  (∀ b ∈ s.auctionBids id, b.bidder ≠ (s.auctions id).seller ∧ b.bidder ≠ 0) ∧
  ((s.currentLeader id = 0 ∧ s.auctionBids id = []) ∨
    (s.currentLeader id ≠ 0 ∧
      s.currentLeader id ∈ (s.auctionBids id).map Bid.bidder)) ∧
  ((s.auctions id).ended = true →
    (s.auctions id).winner = 0 ∨
      ((s.auctions id).winner ≠ (s.auctions id).seller ∧
       (s.auctions id).finalPrice = (s.auctions id).startPrice))

/-- Global invariant: every assigned auction satisfies `AuctionInv`, and
every unassigned slot still holds its mapping default. -/
def Inv (s : SBState) : Prop :=
  (∀ id, id < s.totalAuctions → AuctionInv s id) ∧
  (∀ id, s.totalAuctions ≤ id →
    s.auctions id = Auction.zero ∧ s.auctionBids id = [] ∧
      s.currentLeader id = 0)

/-! ## Concrete states used by witnesses and counterexamples -/

/-- One auction created by seller `1` ("item", start price `5`,
start time `10`) on the fresh contract at time `0`. -/
def state1 : SBState :=
  match applyOp initState 0 (Op.createAuction 1 "item" 5 10) with
  | Except.ok s => s
  | Except.error _ => initState

/-- `state1` after bidder `2` places a bid of plaintext value `7`
at time `11`. -/
def state2 : SBState :=
  match applyOp state1 11 (Op.placeBid 2 0 7 true) with
  | Except.ok s => s
  | Except.error _ => state1

/-- `state1` after the seller emergency-stops the auction at time `5`. -/
def state1stopped : SBState :=
  match applyOp state1 5 (Op.emergencyStop 1 0) with
  | Except.ok s => s
  | Except.error _ => state1

/-- `state2` after the auction times out and is resolved by
`checkAuctionEnd` at time `700`. -/
def state2ended : SBState :=
  match applyOp state2 700 (Op.checkAuctionEnd 3 0) with
  | Except.ok s => s
  | Except.error _ => state2

/-- `state2ended` after the winner (bidder `2`) completes the purchase
by paying the start price. -/
def state3 : SBState :=
  match applyOp state2ended 701 (Op.completePurchase 2 0 5) with
  | Except.ok s => s
  | Except.error _ => state2ended

/-! ## Characterization of successful calls -/

theorem upd_self {β : Type} (f : Nat → β) (k : Nat) (v : β) :
    upd f k v k = v := by
  simp [upd]

theorem upd_ne {β : Type} (f : Nat → β) (k : Nat) (v : β) (k' : Nat)
    (h : k' ≠ k) : upd f k v k' = f k' := by
  simp [upd, h]

theorem createAuction_ok (s : SBState) (now : Nat) (sender : Address)
    (itemName : String) (startPrice startTime : Nat) (id : Nat) (s' : SBState)
    (h : createAuction s now sender itemName startPrice startTime
      = Except.ok (id, s')) :
    itemName ≠ "" ∧ startPrice ≠ 0 ∧ now < startTime ∧
    id = s.totalAuctions ∧
    s' = { s with
      totalAuctions := s.totalAuctions + 1
      auctions := upd s.auctions s.totalAuctions
        { id := s.totalAuctions, seller := sender, itemName := itemName,
          startPrice := startPrice, startTime := startTime, endTime := 0,
          active := true, ended := false, winner := 0, finalPrice := 0 }
      lastBidTime := upd s.lastBidTime s.totalAuctions startTime } := by
  unfold createAuction at h
  by_cases h1 : itemName = ""
  · rw [if_pos h1] at h; exact Except.noConfusion h
  rw [if_neg h1] at h
  by_cases h2 : startPrice = 0
  · rw [if_pos h2] at h; exact Except.noConfusion h
  rw [if_neg h2] at h
  by_cases h3 : startTime ≤ now
  · rw [if_pos h3] at h; exact Except.noConfusion h
  rw [if_neg h3] at h
  injection h with h
  injection h with h4 h5
  exact ⟨h1, h2, by omega, h4.symm, h5.symm⟩

theorem placeBid_ok (s : SBState) (now : Nat) (sender : Address)
    (auctionId bidValue : Nat) (validProof : Bool) (s' : SBState)
    (h : placeBid s now sender auctionId bidValue validProof
      = Except.ok s') :
    auctionId < s.totalAuctions ∧
    (s.auctions auctionId).active = true ∧
    (s.auctions auctionId).ended = false ∧
    (s.auctions auctionId).startTime ≤ now ∧
    sender ≠ (s.auctions auctionId).seller ∧
    validProof = true ∧
    s' = { s with
      highestBid := upd s.highestBid auctionId
        (max (s.highestBid auctionId) bidValue)
      currentLeader := upd s.currentLeader auctionId sender
      auctionBids := upd s.auctionBids auctionId
        (s.auctionBids auctionId ++
          [{ bidder := sender, encryptedAmount := bidValue,
             timestamp := now, valid := true }])
      lastBidTime := upd s.lastBidTime auctionId now } := by
  unfold placeBid at h
  by_cases h1 : auctionId < s.totalAuctions
  case neg => rw [if_neg h1] at h; exact Except.noConfusion h
  rw [if_pos h1] at h
  by_cases h2 : ((s.auctions auctionId).active
      && !(s.auctions auctionId).ended) = true
  case neg => rw [if_neg h2] at h; exact Except.noConfusion h
  rw [if_pos h2] at h
  by_cases h3 : now < (s.auctions auctionId).startTime
  · rw [if_pos h3] at h; exact Except.noConfusion h
  rw [if_neg h3] at h
  by_cases h4 : sender = (s.auctions auctionId).seller
  · rw [if_pos h4] at h; exact Except.noConfusion h
  rw [if_neg h4] at h
  by_cases h5 : validProof = true
  case neg => rw [if_neg h5] at h; exact Except.noConfusion h
  rw [if_pos h5] at h
  injection h with h
  simp only [Bool.and_eq_true, Bool.not_eq_true'] at h2
  exact ⟨h1, h2.1, h2.2, by omega, h4, h5, h.symm⟩

theorem endAuction_ok (s : SBState) (now : Nat) (sender : Address)
    (auctionId : Nat) (s' : SBState)
    (h : endAuction s now sender auctionId = Except.ok s') :
    auctionId < s.totalAuctions ∧
    sender = (s.auctions auctionId).seller ∧
    (s.auctions auctionId).active = true ∧
    (s.auctions auctionId).ended = false ∧
    now > s.lastBidTime auctionId + BID_TIMEOUT ∧
    s' = endAuctionInternal s now auctionId := by
  unfold endAuction at h
  by_cases h1 : auctionId < s.totalAuctions
  case neg => rw [if_neg h1] at h; exact Except.noConfusion h
  rw [if_pos h1] at h
  by_cases h2 : sender = (s.auctions auctionId).seller
  case neg => rw [if_neg h2] at h; exact Except.noConfusion h
  rw [if_pos h2] at h
  by_cases h3 : ((s.auctions auctionId).active
      && !(s.auctions auctionId).ended) = true
  case neg => rw [if_neg h3] at h; exact Except.noConfusion h
  rw [if_pos h3] at h
  by_cases h4 : now > s.lastBidTime auctionId + BID_TIMEOUT
  case neg => rw [if_neg h4] at h; exact Except.noConfusion h
  rw [if_pos h4] at h
  injection h with h
  simp only [Bool.and_eq_true, Bool.not_eq_true'] at h3
  exact ⟨h1, h2, h3.1, h3.2, h4, h.symm⟩

theorem checkAuctionEnd_ok (s : SBState) (now auctionId : Nat)
    (b : Bool) (s' : SBState)
    (h : checkAuctionEnd s now auctionId = Except.ok (b, s')) :
    auctionId < s.totalAuctions ∧
    ((b = false ∧ s' = s) ∨
      (b = true ∧ (s.auctions auctionId).active = true ∧
        (s.auctions auctionId).ended = false ∧
        now > s.lastBidTime auctionId + BID_TIMEOUT ∧
        s' = endAuctionInternal s now auctionId)) := by
  unfold checkAuctionEnd at h
  by_cases h1 : auctionId < s.totalAuctions
  case neg => rw [if_neg h1] at h; exact Except.noConfusion h
  rw [if_pos h1] at h
  refine ⟨h1, ?_⟩
  by_cases h2 : (!(s.auctions auctionId).active
      || (s.auctions auctionId).ended) = true
  · rw [if_pos h2] at h
    injection h with h
    injection h with hb hs
    exact Or.inl ⟨hb.symm, hs.symm⟩
  rw [if_neg h2] at h
  simp only [Bool.or_eq_true, Bool.not_eq_true', not_or] at h2
  by_cases h3 : now > s.lastBidTime auctionId + BID_TIMEOUT
  · rw [if_pos h3] at h
    injection h with h
    injection h with hb hs
    refine Or.inr ⟨hb.symm, ?_, ?_, h3, hs.symm⟩
    · have := h2.1
      simp only [Bool.not_eq_false] at this
      exact this
    · simpa using h2.2
  · rw [if_neg h3] at h
    injection h with h
    injection h with hb hs
    exact Or.inl ⟨hb.symm, hs.symm⟩

theorem emergencyStop_ok (s : SBState) (now : Nat) (sender : Address)
    (auctionId : Nat) (s' : SBState)
    (h : emergencyStop s now sender auctionId = Except.ok s') :
    auctionId < s.totalAuctions ∧
    sender = (s.auctions auctionId).seller ∧
    (s.auctions auctionId).active = true ∧
    (s.auctions auctionId).ended = false ∧
    s' = { s with
      auctions := upd s.auctions auctionId
        { s.auctions auctionId with
            active := false, ended := true, endTime := now,
            winner := 0, finalPrice := 0 } } := by
  unfold emergencyStop at h
  by_cases h1 : auctionId < s.totalAuctions
  case neg => rw [if_neg h1] at h; exact Except.noConfusion h
  rw [if_pos h1] at h
  by_cases h2 : sender = (s.auctions auctionId).seller
  case neg => rw [if_neg h2] at h; exact Except.noConfusion h
  rw [if_pos h2] at h
  by_cases h3 : ((s.auctions auctionId).active
      && !(s.auctions auctionId).ended) = true
  case neg => rw [if_neg h3] at h; exact Except.noConfusion h
  rw [if_pos h3] at h
  injection h with h
  simp only [Bool.and_eq_true, Bool.not_eq_true'] at h3
  exact ⟨h1, h2, h3.1, h3.2, h.symm⟩

theorem completePurchase_ok (s : SBState) (sender : Address)
    (auctionId value : Nat) (s' : SBState)
    (h : completePurchase s sender auctionId value = Except.ok s') :
    auctionId < s.totalAuctions ∧
    (s.auctions auctionId).ended = true ∧
    (s.auctions auctionId).active = false ∧
    sender = (s.auctions auctionId).winner ∧
    value = (s.auctions auctionId).startPrice ∧
    s' = { s with
      balances := upd
        (upd s.balances sender (s.balances sender - value))
        (s.auctions auctionId).seller
        ((upd s.balances sender (s.balances sender - value))
          (s.auctions auctionId).seller + value) } := by
  unfold completePurchase at h
  by_cases h1 : auctionId < s.totalAuctions
  case neg => rw [if_neg h1] at h; exact Except.noConfusion h
  rw [if_pos h1] at h
  by_cases h2 : ((s.auctions auctionId).ended
      && !(s.auctions auctionId).active) = true
  case neg => rw [if_neg h2] at h; exact Except.noConfusion h
  rw [if_pos h2] at h
  by_cases h3 : sender = (s.auctions auctionId).winner
  case neg => rw [if_neg h3] at h; exact Except.noConfusion h
  rw [if_pos h3] at h
  by_cases h4 : value = (s.auctions auctionId).startPrice
  case neg => rw [if_neg h4] at h; exact Except.noConfusion h
  rw [if_pos h4] at h
  injection h with h
  simp only [Bool.and_eq_true, Bool.not_eq_true'] at h2
  exact ⟨h1, h2.1, h2.2, h3, h4, h.symm⟩

/-! ## The reachable-state invariant -/

theorem AuctionInv_congr (s s' : SBState) (id : Nat)
    (ha : s'.auctions id = s.auctions id)
    (hb : s'.auctionBids id = s.auctionBids id)
    (hl : s'.currentLeader id = s.currentLeader id)
    (h : AuctionInv s id) : AuctionInv s' id := by
  unfold AuctionInv at *
  rw [ha, hb, hl]
  exact h

theorem initState_inv : Inv initState := by
  refine ⟨fun id hid => absurd hid (by simp [initState]),
    fun id _ => ⟨rfl, rfl, rfl⟩⟩

theorem createAuction_inv (s : SBState) (now : Nat) (sender : Address)
    (itemName : String) (startPrice startTime : Nat) (id : Nat) (s' : SBState)
    (hs : sender ≠ 0) (hInv : Inv s)
    (h : createAuction s now sender itemName startPrice startTime
      = Except.ok (id, s')) : Inv s' := by
  obtain ⟨-, -, -, -, hstate⟩ :=
    createAuction_ok s now sender itemName startPrice startTime id s' h
  subst hstate
  constructor
  · intro i hi
    have hi' : i < s.totalAuctions + 1 := hi
    by_cases hlt : i < s.totalAuctions
    · refine AuctionInv_congr s _ i ?_ rfl rfl (hInv.1 i hlt)
      exact upd_ne _ _ _ _ (Nat.ne_of_lt hlt)
    · have hieq : i = s.totalAuctions := by omega
      obtain ⟨-, hbids, hleader⟩ := hInv.2 i (by omega)
      refine ⟨?_, ?_, ?_, Or.inl ⟨hleader, hbids⟩, ?_⟩
      · show (upd s.auctions s.totalAuctions _ i).active
          = !(upd s.auctions s.totalAuctions _ i).ended
        rw [hieq, upd_self]
        rfl
      · show (upd s.auctions s.totalAuctions _ i).seller ≠ 0
        rw [hieq, upd_self]
        exact hs
      · intro b hb
        rw [hbids] at hb
        exact absurd hb (List.not_mem_nil b)
      · show (upd s.auctions s.totalAuctions _ i).ended = true → _
        rw [hieq, upd_self]
        intro hfalse
        exact absurd hfalse (by simp)
  · intro i hi
    have hi' : s.totalAuctions + 1 ≤ i := hi
    obtain ⟨hza, hzb, hzl⟩ := hInv.2 i (by omega)
    refine ⟨?_, hzb, hzl⟩
    show upd s.auctions s.totalAuctions _ i = Auction.zero
    rw [upd_ne _ _ _ _ (by omega)]
    exact hza

theorem placeBid_inv (s : SBState) (now : Nat) (sender : Address)
    (auctionId bidValue : Nat) (validProof : Bool) (s' : SBState)
    (hs : sender ≠ 0) (hInv : Inv s)
    (h : placeBid s now sender auctionId bidValue validProof
      = Except.ok s') : Inv s' := by
  obtain ⟨hid, -, hended, -, hseller, -, hstate⟩ :=
    placeBid_ok s now sender auctionId bidValue validProof s' h
  subst hstate
  constructor
  · intro i hi
    have hi' : i < s.totalAuctions := hi
    by_cases hiq : i = auctionId
    · subst hiq
      obtain ⟨h1, h2, h3, -, h5⟩ := hInv.1 i hi'
      refine ⟨h1, h2, ?_, ?_, h5⟩
      · show ∀ b ∈ upd s.auctionBids i _ i, _
        rw [upd_self]
        intro b hb
        rcases List.mem_append.mp hb with hb | hb
        · exact h3 b hb
        · rw [List.mem_singleton.mp hb]
          exact ⟨hseller, hs⟩
      · refine Or.inr ⟨?_, ?_⟩
        · show upd s.currentLeader i sender i ≠ 0
          rw [upd_self]
          exact hs
        · show upd s.currentLeader i sender i
            ∈ (upd s.auctionBids i _ i).map Bid.bidder
          rw [upd_self, upd_self, List.map_append, List.mem_append]
          exact Or.inr (by simp)
    · refine AuctionInv_congr s _ i rfl ?_ ?_ (hInv.1 i hi')
      · exact upd_ne _ _ _ _ hiq
      · exact upd_ne _ _ _ _ hiq
  · intro i hi
    have hi' : s.totalAuctions ≤ i := hi
    obtain ⟨hza, hzb, hzl⟩ := hInv.2 i hi'
    have hne : i ≠ auctionId := by omega
    refine ⟨hza, ?_, ?_⟩
    · show upd s.auctionBids auctionId _ i = []
      rw [upd_ne _ _ _ _ hne]
      exact hzb
    · show upd s.currentLeader auctionId sender i = 0
      rw [upd_ne _ _ _ _ hne]
      exact hzl

theorem endAuctionInternal_inv (s : SBState) (now auctionId : Nat)
    (hid : auctionId < s.totalAuctions) (hInv : Inv s) :
    Inv (endAuctionInternal s now auctionId) := by
  unfold endAuctionInternal
  constructor
  · intro i hi
    have hi' : i < s.totalAuctions := hi
    by_cases hiq : i = auctionId
    · subst hiq
      obtain ⟨-, h2, h3, h4, -⟩ := hInv.1 i hi'
      refine ⟨?_, ?_, ?_, h4, ?_⟩
      · show (upd s.auctions i _ i).active = !(upd s.auctions i _ i).ended
        rw [upd_self]
        rfl
      · show (upd s.auctions i _ i).seller ≠ 0
        rw [upd_self]
        exact h2
      · intro b hb
        show b.bidder ≠ (upd s.auctions i _ i).seller ∧ b.bidder ≠ 0
        rw [upd_self]
        exact h3 b hb
      · intro _
        show (upd s.auctions i _ i).winner = 0 ∨
          ((upd s.auctions i _ i).winner ≠ (upd s.auctions i _ i).seller ∧
            (upd s.auctions i _ i).finalPrice
              = (upd s.auctions i _ i).startPrice)
        rw [upd_self]
        rcases h4 with ⟨hl0, -⟩ | ⟨-, hlmem⟩
        · exact Or.inl hl0
        · refine Or.inr ⟨?_, rfl⟩
          obtain ⟨b, hbmem, hbeq⟩ := List.mem_map.mp hlmem
          show s.currentLeader i ≠ (s.auctions i).seller
          rw [← hbeq]
          exact (h3 b hbmem).1
    · exact AuctionInv_congr s _ i (upd_ne _ _ _ _ hiq) rfl rfl (hInv.1 i hi')
  · intro i hi
    have hi' : s.totalAuctions ≤ i := hi
    obtain ⟨hza, hzb, hzl⟩ := hInv.2 i hi'
    have hne : i ≠ auctionId := by omega
    refine ⟨?_, hzb, hzl⟩
    show upd s.auctions auctionId _ i = Auction.zero
    rw [upd_ne _ _ _ _ hne]
    exact hza

theorem checkAuctionEnd_inv (s : SBState) (now auctionId : Nat)
    (b : Bool) (s' : SBState) (hInv : Inv s)
    (h : checkAuctionEnd s now auctionId = Except.ok (b, s')) : Inv s' := by
  obtain ⟨hid, hcase⟩ := checkAuctionEnd_ok s now auctionId b s' h
  rcases hcase with ⟨-, hstate⟩ | ⟨-, -, -, -, hstate⟩
  · rw [hstate]; exact hInv
  · rw [hstate]; exact endAuctionInternal_inv s now auctionId hid hInv

theorem endAuction_inv (s : SBState) (now : Nat) (sender : Address)
    (auctionId : Nat) (s' : SBState) (hInv : Inv s)
    (h : endAuction s now sender auctionId = Except.ok s') : Inv s' := by
  obtain ⟨hid, -, -, -, -, hstate⟩ := endAuction_ok s now sender auctionId s' h
  rw [hstate]
  exact endAuctionInternal_inv s now auctionId hid hInv

theorem emergencyStop_inv (s : SBState) (now : Nat) (sender : Address)
    (auctionId : Nat) (s' : SBState) (hInv : Inv s)
    (h : emergencyStop s now sender auctionId = Except.ok s') : Inv s' := by
  obtain ⟨hid, -, -, -, hstate⟩ := emergencyStop_ok s now sender auctionId s' h
  subst hstate
  constructor
  · intro i hi
    have hi' : i < s.totalAuctions := hi
    by_cases hiq : i = auctionId
    · subst hiq
      obtain ⟨-, h2, h3, h4, -⟩ := hInv.1 i hi'
      refine ⟨?_, ?_, ?_, h4, ?_⟩
      · show (upd s.auctions i _ i).active = !(upd s.auctions i _ i).ended
        rw [upd_self]
        rfl
      · show (upd s.auctions i _ i).seller ≠ 0
        rw [upd_self]
        exact h2
      · intro b hb
        show b.bidder ≠ (upd s.auctions i _ i).seller ∧ b.bidder ≠ 0
        rw [upd_self]
        exact h3 b hb
      · intro _
        refine Or.inl ?_
        show (upd s.auctions i _ i).winner = 0
        rw [upd_self]
    · exact AuctionInv_congr s _ i (upd_ne _ _ _ _ hiq) rfl rfl (hInv.1 i hi')
  · intro i hi
    have hi' : s.totalAuctions ≤ i := hi
    obtain ⟨hza, hzb, hzl⟩ := hInv.2 i hi'
    have hne : i ≠ auctionId := by omega
    refine ⟨?_, hzb, hzl⟩
    show upd s.auctions auctionId _ i = Auction.zero
    rw [upd_ne _ _ _ _ hne]
    exact hza

theorem completePurchase_inv (s : SBState) (sender : Address)
    (auctionId value : Nat) (s' : SBState) (hInv : Inv s)
    (h : completePurchase s sender auctionId value = Except.ok s') :
    Inv s' := by
  obtain ⟨-, -, -, -, -, hstate⟩ :=
    completePurchase_ok s sender auctionId value s' h
  subst hstate
  exact ⟨fun i hi => AuctionInv_congr s _ i rfl rfl rfl (hInv.1 i hi),
    fun i hi => hInv.2 i hi⟩

theorem applyOp_inv (s : SBState) (now : Nat) (op : Op) (s' : SBState)
    (hs : op.sender ≠ 0) (hInv : Inv s)
    (h : applyOp s now op = Except.ok s') : Inv s' := by
  cases op with
  | createAuction sender itemName startPrice startTime =>
    simp only [applyOp] at h
    cases hc : createAuction s now sender itemName startPrice startTime with
    | error e => rw [hc] at h; exact Except.noConfusion h
    | ok p =>
      rw [hc] at h
      simp only [Except.map] at h
      injection h with h
      rw [← h]
      exact createAuction_inv s now sender itemName startPrice startTime
        p.1 p.2 hs hInv (by rw [hc])
  | placeBid sender auctionId bidValue validProof =>
    exact placeBid_inv s now sender auctionId bidValue validProof s' hs hInv h
  | checkAuctionEnd sender auctionId =>
    simp only [applyOp] at h
    cases hc : checkAuctionEnd s now auctionId with
    | error e => rw [hc] at h; exact Except.noConfusion h
    | ok p =>
      rw [hc] at h
      simp only [Except.map] at h
      injection h with h
      rw [← h]
      exact checkAuctionEnd_inv s now auctionId p.1 p.2 hInv (by rw [hc])
  | endAuction sender auctionId =>
    exact endAuction_inv s now sender auctionId s' hInv h
  | emergencyStop sender auctionId =>
    exact emergencyStop_inv s now sender auctionId s' hInv h
  | completePurchase sender auctionId value =>
    exact completePurchase_inv s sender auctionId value s' hInv h

/-- Every reachable state satisfies the global invariant. -/
theorem reachable_inv (s : SBState) (h : Reachable s) : Inv s := by
  induction h with
  | init => exact initState_inv
  | step s s' now op hr hs hstep ih => exact applyOp_inv s now op s' hs ih hstep

theorem state1_reachable : Reachable state1 :=
  Reachable.step initState state1 0 (Op.createAuction 1 "item" 5 10)
    Reachable.init (by decide) rfl

theorem state2_reachable : Reachable state2 :=
  Reachable.step state1 state2 11 (Op.placeBid 2 0 7 true)
    state1_reachable (by decide) rfl

theorem state1stopped_reachable : Reachable state1stopped :=
  Reachable.step state1 state1stopped 5 (Op.emergencyStop 1 0)
    state1_reachable (by decide) rfl

theorem state2ended_reachable : Reachable state2ended :=
  Reachable.step state2 state2ended 700 (Op.checkAuctionEnd 3 0)
    state2_reachable (by decide) rfl

theorem state3_reachable : Reachable state3 :=
  Reachable.step state2ended state3 701 (Op.completePurchase 2 0 5)
    state2ended_reachable (by decide) rfl

/-! ## Claims -/

/-- C1 (counterexample to the claim as stated): on the auction of `state1`
no bid was ever placed, yet resolution through `checkAuctionEnd` at time
`611` produces a state with no winner and `finalPrice = 5 = startPrice`,
not `0` as the claim requires for a winnerless resolution. -/
theorem C1_counterexample :
    state1.auctionBids 0 = [] ∧
    checkAuctionEnd state1 611 0
      = Except.ok (true, endAuctionInternal state1 611 0) ∧
    ((endAuctionInternal state1 611 0).auctions 0).winner = 0 ∧
    ((endAuctionInternal state1 611 0).auctions 0).finalPrice = 5 ∧
    ((endAuctionInternal state1 611 0).auctions 0).finalPrice ≠ 0 :=
  ⟨rfl, rfl, by decide, by decide, by decide⟩

/-- C1 (amended): for every auction of a reachable state resolved through
`checkAuctionEnd` or `endAuction`, the resolution sets `winner` to the
current leader identity (absent exactly when no bid was ever placed),
sets `finalPrice` to `startPrice` unconditionally (also when no winner
exists), sets `endTime` to the current time, and sets the status to
Ended. -/
theorem C1_resolution_rule (s : SBState) (hr : Reachable s)
    (now auctionId : Nat) (sender : Address) (s' : SBState)
    (h : checkAuctionEnd s now auctionId = Except.ok (true, s') ∨
         endAuction s now sender auctionId = Except.ok s') :
    (s'.auctions auctionId).winner = s.currentLeader auctionId ∧
    ((s'.auctions auctionId).winner = 0 ↔ s.auctionBids auctionId = []) ∧
    (s'.auctions auctionId).finalPrice = (s.auctions auctionId).startPrice ∧
    (s'.auctions auctionId).endTime = now ∧
    (s'.auctions auctionId).ended = true ∧
    (s'.auctions auctionId).active = false := by
  have hid : auctionId < s.totalAuctions := by
    rcases h with h | h
    · exact (checkAuctionEnd_ok s now auctionId true s' h).1
    · exact (endAuction_ok s now sender auctionId s' h).1
  have hstate : s' = endAuctionInternal s now auctionId := by
    rcases h with h | h
    · rcases (checkAuctionEnd_ok s now auctionId true s' h).2 with
        ⟨hb, -⟩ | ⟨-, -, -, -, hs'⟩
      · exact absurd hb (by simp)
      · exact hs'
    · exact (endAuction_ok s now sender auctionId s' h).2.2.2.2.2
  have hleader := ((reachable_inv s hr).1 auctionId hid).2.2.2.1
  subst hstate
  unfold endAuctionInternal
  refine ⟨?_, ?_, ?_, ?_, ?_, ?_⟩
  · show (upd s.auctions auctionId _ auctionId).winner = _
    rw [upd_self]
  · show (upd s.auctions auctionId _ auctionId).winner = 0 ↔ _
    rw [upd_self]
    show s.currentLeader auctionId = 0 ↔ s.auctionBids auctionId = []
    constructor
    · intro h0
      rcases hleader with ⟨-, hb⟩ | ⟨hne, -⟩
      · exact hb
      · exact absurd h0 hne
    · intro hb
      rcases hleader with ⟨h0, -⟩ | ⟨-, hmem⟩
      · exact h0
      · rw [hb] at hmem
        exact absurd hmem (by simp)
  · show (upd s.auctions auctionId _ auctionId).finalPrice = _
    rw [upd_self]
  · show (upd s.auctions auctionId _ auctionId).endTime = now
    rw [upd_self]
  · show (upd s.auctions auctionId _ auctionId).ended = true
    rw [upd_self]
  · show (upd s.auctions auctionId _ auctionId).active = false
    rw [upd_self]

theorem C1_witness :
    ((endAuctionInternal state2 700 0).auctions 0).winner
        = state2.currentLeader 0 ∧
    (((endAuctionInternal state2 700 0).auctions 0).winner = 0 ↔
        state2.auctionBids 0 = []) ∧
    ((endAuctionInternal state2 700 0).auctions 0).finalPrice
        = (state2.auctions 0).startPrice ∧
    ((endAuctionInternal state2 700 0).auctions 0).endTime = 700 ∧
    ((endAuctionInternal state2 700 0).auctions 0).ended = true ∧
    ((endAuctionInternal state2 700 0).auctions 0).active = false :=
  C1_resolution_rule state2 state2_reachable 700 0 3
    (endAuctionInternal state2 700 0) (Or.inl rfl)

/-- C2: for every assigned auction id of a reachable state,
`checkAuctionEnd` is a no-op returning `false` whenever the auction is
already Ended or the current time is at most
`lastBidTime + BID_TIMEOUT`; otherwise it transitions the auction to
Ended and returns `true`. -/
theorem C2_checkAuctionEnd (s : SBState) (hr : Reachable s)
    (now auctionId : Nat) (hid : auctionId < s.totalAuctions) :
    (((s.auctions auctionId).ended = true ∨
        now ≤ s.lastBidTime auctionId + BID_TIMEOUT) →
      checkAuctionEnd s now auctionId = Except.ok (false, s)) ∧
    ((s.auctions auctionId).ended = false →
      now > s.lastBidTime auctionId + BID_TIMEOUT →
      checkAuctionEnd s now auctionId
          = Except.ok (true, endAuctionInternal s now auctionId) ∧
        ((endAuctionInternal s now auctionId).auctions auctionId).ended
          = true) := by
  have hact : (s.auctions auctionId).active = !(s.auctions auctionId).ended :=
    ((reachable_inv s hr).1 auctionId hid).1
  constructor
  · intro hcase
    unfold checkAuctionEnd
    rw [if_pos hid]
    rcases hcase with hend | htime
    · rw [if_pos (by simp [hend])]
    · by_cases hend : (s.auctions auctionId).ended = true
      · rw [if_pos (by simp [hend])]
      · have hendf : (s.auctions auctionId).ended = false := by
          simpa using hend
        rw [if_neg (by simp [hact, hendf]), if_neg (by omega)]
  · intro hend htime
    constructor
    · unfold checkAuctionEnd
      rw [if_pos hid, if_neg (by simp [hact, hend]), if_pos htime]
    · unfold endAuctionInternal
      show (upd s.auctions auctionId _ auctionId).ended = true
      rw [upd_self]

theorem C2_witness :
    checkAuctionEnd state1 611 0
        = Except.ok (true, endAuctionInternal state1 611 0) ∧
      ((endAuctionInternal state1 611 0).auctions 0).ended = true :=
  (C2_checkAuctionEnd state1 state1_reachable 611 0 (by decide)).2
    (by decide) (by decide)

/-- C3: every successful `createAuction` initializes the new auction's
`lastBidTime` to its `startTime`, so the inactivity timeout is measured
from the start time even before any bid is placed. -/
theorem C3_lastBidTime_initialized (s : SBState) (now : Nat)
    (sender : Address) (itemName : String) (startPrice startTime : Nat)
    (id : Nat) (s' : SBState)
    (h : createAuction s now sender itemName startPrice startTime
      = Except.ok (id, s')) :
    s'.lastBidTime id = startTime ∧
    s'.lastBidTime id = (s'.auctions id).startTime := by
  obtain ⟨-, -, -, hid, hstate⟩ :=
    createAuction_ok s now sender itemName startPrice startTime id s' h
  subst hstate
  subst hid
  constructor
  · show upd s.lastBidTime s.totalAuctions startTime s.totalAuctions
      = startTime
    rw [upd_self]
  · show upd s.lastBidTime s.totalAuctions startTime s.totalAuctions
      = (upd s.auctions s.totalAuctions _ s.totalAuctions).startTime
    rw [upd_self, upd_self]

theorem C3_witness :
    state1.lastBidTime 0 = 10 ∧
    state1.lastBidTime 0 = (state1.auctions 0).startTime :=
  C3_lastBidTime_initialized initState 0 1 "item" 5 10 0 state1 rfl

/-- C4: for every assigned auction id of a reachable state,
`completePurchase` fails with `NotEnded` unless the auction is Ended,
fails with `NotWinner` for every caller other than the resolved winner,
and on success the seller's recorded balance increases by exactly
`finalPrice`. -/
theorem C4_completePurchase (s : SBState) (hr : Reachable s)
    (sender : Address) (auctionId value : Nat)
    (hid : auctionId < s.totalAuctions) (hs : sender ≠ 0) :
    ((s.auctions auctionId).ended = false →
      completePurchase s sender auctionId value
        = Except.error SBError.NotEnded) ∧
    ((s.auctions auctionId).ended = true →
      sender ≠ (s.auctions auctionId).winner →
      completePurchase s sender auctionId value
        = Except.error SBError.NotWinner) ∧
    (∀ s', completePurchase s sender auctionId value = Except.ok s' →
      s'.balances (s.auctions auctionId).seller
        = s.balances (s.auctions auctionId).seller
          + (s.auctions auctionId).finalPrice) := by
  have hact : (s.auctions auctionId).active = !(s.auctions auctionId).ended :=
    ((reachable_inv s hr).1 auctionId hid).1
  have hw := ((reachable_inv s hr).1 auctionId hid).2.2.2.2
  refine ⟨?_, ?_, ?_⟩
  · intro hend
    unfold completePurchase
    rw [if_pos hid, if_neg (by simp [hend])]
  · intro hend hwin
    unfold completePurchase
    rw [if_pos hid, if_pos (by simp [hend, hact]), if_neg hwin]
  · intro s' h
    obtain ⟨-, hended, -, hsw, hval, hstate⟩ :=
      completePurchase_ok s sender auctionId value s' h
    rcases hw hended with hw0 | ⟨hws, hfp⟩
    · exact absurd (hsw.trans hw0) hs
    · have hns : (s.auctions auctionId).seller ≠ sender := by
        rw [hsw]
        exact fun hc => hws hc.symm
      subst hstate
      show upd (upd s.balances sender _) (s.auctions auctionId).seller _
        (s.auctions auctionId).seller = _
      rw [upd_self, upd_ne _ _ _ _ hns, hval, hfp]

theorem C4_witness :
    state3.balances (state2ended.auctions 0).seller
      = state2ended.balances (state2ended.auctions 0).seller
        + (state2ended.auctions 0).finalPrice :=
  (C4_completePurchase state2ended state2ended_reachable 2 0 5
    (by decide) (by decide)).2.2 state3 rfl

/-- C5 (counterexample to the claim as stated): in `state1stopped` the
auction was ended by `emergencyStop`, the caller `1` is its seller, and
the current time `20` is at most `lastBidTime + BID_TIMEOUT`, yet
`endAuction` fails with `NotActive` ("Auction not active"), not with
`TooEarly` as the claim requires. -/
theorem C5_counterexample :
    (state1stopped.auctions 0).ended = true ∧
    (1 : Nat) = (state1stopped.auctions 0).seller ∧
    (20 : Nat) ≤ state1stopped.lastBidTime 0 + BID_TIMEOUT ∧
    endAuction state1stopped 20 1 0 = Except.error SBError.NotActive ∧
    SBError.NotActive ≠ SBError.TooEarly :=
  ⟨by decide, by decide, by decide, rfl, by decide⟩

/-- C5 (amended): for every assigned auction id of a reachable state,
`endAuction` fails with `Forbidden` for every caller other than the
seller; for the seller on an already-Ended auction it fails with
`NotActive`; for the seller on a not-ended auction it fails with
`TooEarly` if the current time is at most `lastBidTime + BID_TIMEOUT`,
and otherwise performs exactly the resolution that `checkAuctionEnd`
performs. -/
theorem C5_endAuction (s : SBState) (hr : Reachable s) (now : Nat)
    (sender : Address) (auctionId : Nat)
    (hid : auctionId < s.totalAuctions) :
    (sender ≠ (s.auctions auctionId).seller →
      endAuction s now sender auctionId = Except.error SBError.Forbidden) ∧
    (sender = (s.auctions auctionId).seller →
      (s.auctions auctionId).ended = true →
      endAuction s now sender auctionId = Except.error SBError.NotActive) ∧
    (sender = (s.auctions auctionId).seller →
      (s.auctions auctionId).ended = false →
      now ≤ s.lastBidTime auctionId + BID_TIMEOUT →
      endAuction s now sender auctionId = Except.error SBError.TooEarly) ∧
    (sender = (s.auctions auctionId).seller →
      (s.auctions auctionId).ended = false →
      now > s.lastBidTime auctionId + BID_TIMEOUT →
      endAuction s now sender auctionId
          = Except.ok (endAuctionInternal s now auctionId) ∧
        checkAuctionEnd s now auctionId
          = Except.ok (true, endAuctionInternal s now auctionId)) := by
  have hact : (s.auctions auctionId).active = !(s.auctions auctionId).ended :=
    ((reachable_inv s hr).1 auctionId hid).1
  refine ⟨?_, ?_, ?_, ?_⟩
  · intro hsender
    unfold endAuction
    rw [if_pos hid, if_neg hsender]
  · intro hsender hend
    unfold endAuction
    rw [if_pos hid, if_pos hsender, if_neg (by simp [hact, hend])]
  · intro hsender hend htime
    unfold endAuction
    rw [if_pos hid, if_pos hsender, if_pos (by simp [hact, hend]),
      if_neg (by omega)]
  · intro hsender hend htime
    constructor
    · unfold endAuction
      rw [if_pos hid, if_pos hsender, if_pos (by simp [hact, hend]),
        if_pos htime]
    · unfold checkAuctionEnd
      rw [if_pos hid, if_neg (by simp [hact, hend]), if_pos htime]

theorem C5_witness :
    endAuction state1 611 1 0
        = Except.ok (endAuctionInternal state1 611 0) ∧
      checkAuctionEnd state1 611 0
        = Except.ok (true, endAuctionInternal state1 611 0) :=
  (C5_endAuction state1 state1_reachable 611 1 0 (by decide)).2.2.2
    (by decide) (by decide) (by decide)

/-- C6: `placeBid` fails with `NotFound` on an unassigned id, with
`NotActive` if the auction's status is not Active (inactive flag, already
ended, or the current time before `startTime`), and with `Forbidden` when
the seller bids on an own active auction; consequently, in every
reachable state, no recorded `Bid` has `bidder` equal to the auction's
seller. -/
theorem C6_placeBid_guards (s : SBState) (now : Nat) (sender : Address)
    (auctionId bidValue : Nat) (validProof : Bool) (t : SBState)
    (hr : Reachable t) :
    (s.totalAuctions ≤ auctionId →
      placeBid s now sender auctionId bidValue validProof
        = Except.error SBError.NotFound) ∧
    (auctionId < s.totalAuctions →
      ¬((s.auctions auctionId).active = true ∧
          (s.auctions auctionId).ended = false ∧
          (s.auctions auctionId).startTime ≤ now) →
      placeBid s now sender auctionId bidValue validProof
        = Except.error SBError.NotActive) ∧
    (auctionId < s.totalAuctions →
      (s.auctions auctionId).active = true →
      (s.auctions auctionId).ended = false →
      (s.auctions auctionId).startTime ≤ now →
      sender = (s.auctions auctionId).seller →
      placeBid s now sender auctionId bidValue validProof
        = Except.error SBError.Forbidden) ∧
    (∀ id, id < t.totalAuctions →
      ∀ b ∈ t.auctionBids id, b.bidder ≠ (t.auctions id).seller) := by
  refine ⟨?_, ?_, ?_, ?_⟩
  · intro hle
    unfold placeBid
    rw [if_neg (by omega)]
  · intro hid hnot
    unfold placeBid
    rw [if_pos hid]
    by_cases hcond : ((s.auctions auctionId).active
        && !(s.auctions auctionId).ended) = true
    · rw [if_pos hcond]
      simp only [Bool.and_eq_true, Bool.not_eq_true'] at hcond
      have hstart : now < (s.auctions auctionId).startTime := by
        by_contra hge
        exact hnot ⟨hcond.1, hcond.2, by omega⟩
      rw [if_pos hstart]
    · rw [if_neg hcond]
  · intro hid hactive hend hstart hsender
    unfold placeBid
    rw [if_pos hid, if_pos (by simp [hactive, hend]),
      if_neg (by omega), if_pos hsender]
  · intro id hidt b hb
    exact (((reachable_inv t hr).1 id hidt).2.2.1 b hb).1

theorem C6_witness :
    placeBid state1 11 1 0 7 true = Except.error SBError.Forbidden :=
  (C6_placeBid_guards state1 11 1 0 7 true state2 state2_reachable).2.2.1
    (by decide) (by decide) (by decide) (by decide) (by decide)

/-- C7: `createAuction` fails with `InvalidInput` exactly when `itemName`
is empty, `startPrice` is not positive, or `startTime` is not in the
future; on every valid input it succeeds and returns the next sequential
id `totalAuctions` (starting from `0` on the fresh contract) while
incrementing the counter, so returned ids are unique and sequential. -/
theorem C7_createAuction_validation (s : SBState) (now : Nat)
    (sender : Address) (itemName : String) (startPrice startTime : Nat) :
    ((itemName = "" ∨ startPrice = 0 ∨ startTime ≤ now) ↔
      createAuction s now sender itemName startPrice startTime
        = Except.error SBError.InvalidInput) ∧
    (itemName ≠ "" → startPrice ≠ 0 → now < startTime →
      ∃ s', createAuction s now sender itemName startPrice startTime
          = Except.ok (s.totalAuctions, s')
        ∧ s'.totalAuctions = s.totalAuctions + 1
        ∧ (s'.auctions s.totalAuctions).id = s.totalAuctions
        ∧ (s'.auctions s.totalAuctions).seller = sender) := by
  constructor
  · constructor
    · intro hbad
      unfold createAuction
      rcases hbad with h1 | h2 | h3
      · rw [if_pos h1]
      · by_cases h1 : itemName = ""
        · rw [if_pos h1]
        · rw [if_neg h1, if_pos h2]
      · by_cases h1 : itemName = ""
        · rw [if_pos h1]
        · rw [if_neg h1]
          by_cases h2 : startPrice = 0
          · rw [if_pos h2]
          · rw [if_neg h2, if_pos h3]
    · intro herr
      by_contra hgood
      push_neg at hgood
      obtain ⟨hg1, hg2, hg3⟩ := hgood
      unfold createAuction at herr
      rw [if_neg hg1, if_neg hg2, if_neg (by omega : ¬ startTime ≤ now)]
        at herr
      exact Except.noConfusion herr
  · intro h1 h2 h3
    have hok : createAuction s now sender itemName startPrice startTime
        = Except.ok (s.totalAuctions,
          { s with
            totalAuctions := s.totalAuctions + 1
            auctions := upd s.auctions s.totalAuctions
              { id := s.totalAuctions, seller := sender,
                itemName := itemName, startPrice := startPrice,
                startTime := startTime, endTime := 0, active := true,
                ended := false, winner := 0, finalPrice := 0 }
            lastBidTime := upd s.lastBidTime s.totalAuctions startTime }) := by
      unfold createAuction
      rw [if_neg h1, if_neg h2, if_neg (by omega : ¬ startTime ≤ now)]
    refine ⟨_, hok, rfl, ?_, ?_⟩
    · show (upd s.auctions s.totalAuctions _ s.totalAuctions).id
        = s.totalAuctions
      rw [upd_self]
    · show (upd s.auctions s.totalAuctions _ s.totalAuctions).seller = sender
      rw [upd_self]

theorem C7_witness :
    createAuction initState 0 1 "" 5 10
      = Except.error SBError.InvalidInput :=
  (C7_createAuction_validation initState 0 1 "" 5 10).1.mp (Or.inl rfl)

/-- C8: on every accepted bid, the new encrypted highest bid is the
encrypted maximum of the previous one and the bid, hence under the
encrypted ordering (the order of the underlying plaintexts) the
encrypted highest bid is monotonically non-decreasing across each
`placeBid`. -/
theorem C8_highestBid_monotone (s : SBState) (now : Nat) (sender : Address)
    (auctionId bidValue : Nat) (validProof : Bool) (s' : SBState)
    (h : placeBid s now sender auctionId bidValue validProof
      = Except.ok s') :
    s'.highestBid auctionId = max (s.highestBid auctionId) bidValue ∧
    s.highestBid auctionId ≤ s'.highestBid auctionId := by
  obtain ⟨-, -, -, -, -, -, hstate⟩ :=
    placeBid_ok s now sender auctionId bidValue validProof s' h
  subst hstate
  constructor
  · show upd s.highestBid auctionId _ auctionId = _
    rw [upd_self]
  · show s.highestBid auctionId ≤ upd s.highestBid auctionId _ auctionId
    rw [upd_self]
    exact Nat.le_max_left _ _

theorem C8_witness :
    state2.highestBid 0 = max (state1.highestBid 0) 7 ∧
    state1.highestBid 0 ≤ state2.highestBid 0 :=
  C8_highestBid_monotone state1 11 2 0 7 true state2 rfl

end SafeBid
